import Mathlib

/-!
Verification of the snapflow/dags pipeline runtime core against its
natural-language specification.

The definitions below are a shallow embedding of the Python sources under
src/ (dags.core.environment, dags.core.pipe, dags.core.conversion
.memory_to_memory, dags.core.data_formats.records_list_generator,
dags.modules.core.pipes.static, basis.modules.core.functions.accumulator).
Components of the repository that are referenced but whose files are not
present under src/ (graph.py, runnable.py, conversion/converter.py,
utils/pandas.py) are modelled from the specification; each such definition
carries a doc comment beginning with "Modelled from the spec:".
-/

namespace Snapflow

/-- Observable events on a metadata session, in the order the context
managers in dags.core.environment emit them. -/
inductive SessEvent : Type
  | opened
  | committed
  | rolledBack
  | closed
deriving DecidableEq, Repr

/-- Embedding of Environment.session_scope (environment.py lines 254-264):
open a session, run the enclosed work, commit on success, roll back and
re-raise on any exception, and close the session in both cases. The
enclosed work is represented by its outcome, an Except value. Returns
the propagated outcome and the list of session events. -/
def session_scope {E A : Type} (body : Except E A) : Except E A × List SessEvent :=
  match body with
  | Except.ok a => (Except.ok a, [SessEvent.opened, SessEvent.committed, SessEvent.closed])
  | Except.error e => (Except.error e, [SessEvent.opened, SessEvent.rolledBack, SessEvent.closed])

/-- Embedding of Environment.execution (environment.py lines 285-304):
same transactional shape as session_scope — a fresh session is created,
the execution-manager work runs, the session is committed on success,
rolled back with the exception re-raised on failure, and closed in all
cases. -/
def execution {E A : Type} (body : Except E A) : Except E A × List SessEvent :=
  match body with
  | Except.ok a => (Except.ok a, [SessEvent.opened, SessEvent.committed, SessEvent.closed])
  | Except.error e => (Except.error e, [SessEvent.opened, SessEvent.rolledBack, SessEvent.closed])

/-- The dependency graph: node identifiers and, for each node, the list of
its direct upstream dependencies (derived from input bindings). -/
structure Graph : Type where
  nodes : List Nat
  upstream : Nat → List Nat

/-- m is in the transitive upstream dependency closure of n: n reaches m by
following zero or more direct upstream edges. -/
def InClosure (g : Graph) (n m : Nat) : Prop :=
  Relation.ReflTransGen (fun a b => b ∈ g.upstream a) n m

/-- Modelled from the spec: Graph.get_all_upstream_dependencies_in_execution_order
(graph.py is not under src/). Per spec section 4.5, the list is the
transitive upstream dependency closure of the node, in topological order
(each node after all of its upstream dependencies), ending with the
requested node itself. -/
def IsExecutionOrder (g : Graph) (n : Nat) (order : List Nat) : Prop :=
  order.Nodup ∧
  (∀ m ∈ order, InClosure g n m) ∧
  (∀ m, InClosure g n m → m ∈ order) ∧
  order.getLast? = some n ∧
  order.Pairwise (fun a b => b ∉ g.upstream a)

/-- The loop body of Environment.produce (environment.py lines 322-326):
output starts as None, and for each dependency in order a fresh
execution scope is opened in which the node is run; the running output is
overwritten by each node's result. Returns the final outcome and, per
executed node, the session events of its scope. `run d` is the outcome of
em.run(d, to_exhaustion) inside the scope. -/
def produceLoop {E B : Type} (run : Nat → Except E (Option B)) :
    List Nat → Option B → Except E (Option B) × List (Nat × List SessEvent)
  | [], output => (Except.ok output, [])
  | dep :: deps, output =>
    match execution (run dep) with
    | (Except.ok o, evs) =>
      let rest := produceLoop run deps o
      (rest.1, (dep, evs) :: rest.2)
    | (Except.error e, evs) => (Except.error e, [(dep, evs)])

/-- Embedding of Environment.produce (environment.py lines 306-326):
`dependencies` is the list returned by
get_all_upstream_dependencies_in_execution_order (characterized by
IsExecutionOrder, graph.py not being under src/); produce folds the
per-dependency execution scopes over it starting from no output. -/
def produce {E B : Type} (run : Nat → Except E (Option B)) (dependencies : List Nat) :
    Except E (Option B) × List (Nat × List SessEvent) :=
  produceLoop run dependencies none

/-! ## Data formats and records objects -/

/-- A records list (dags.core.data_formats.records_list.RecordsList): a list
of records, each record an ordered association of field name to value.
Field names are a parameter F (strings in the Python source). -/
abbrev RecordsList (F V : Type) := List (List (F × V))

/-- A dataframe in columnar form (pandas.DataFrame as used by the
converters): an ordered list of named columns, each a list of values. -/
abbrev DataFrame (F V : Type) := List (F × List V)

/-- The record-type descriptor (dags.core.typing.object_type.ObjectType):
the ordered field names of the schema, as consumed by the converters. -/
structure ObjectType (F : Type) : Type where
  fields : List F
deriving DecidableEq

/-- The in-memory data formats named by the conversion sources
(dags.core.data_formats). -/
inductive MemDataFormat : Type
  | dataFrameFormat
  | recordsListFormat
  | recordsListGeneratorFormat
  | dataFrameGeneratorFormat
deriving DecidableEq, Repr

/-- Modelled from the spec: data_formats/base.py is not under src/; per
spec section 4.2 a format is streaming-capable iff it exposes a pull-based
generator rather than a fully materialized value — the two generator
formats. -/
def MemDataFormat.is_streamable : MemDataFormat → Bool
  | MemDataFormat.recordsListGeneratorFormat => true
  | MemDataFormat.dataFrameGeneratorFormat => true
  | _ => false

/-- A records object held in local memory storage: the payload matching one
of the four memory formats. A generator is embedded as the list of chunks
it yields. -/
inductive RecordsObject (F V : Type) : Type
  | df (d : DataFrame F V)
  | rl (r : RecordsList F V)
  | rlg (chunks : List (RecordsList F V))
  | dfg (chunks : List (DataFrame F V))
deriving DecidableEq

/-- Field lookup in a record: the value of the first pair whose name is the
requested field, as a Python dict/pandas column access would find it. -/
def lookupField {F V : Type} [DecidableEq F] (f : F) (r : List (F × V)) : Option V :=
  (r.find? (fun p => decide (p.1 = f))).map Prod.snd

/-- Modelled from the spec: dags/utils/pandas.records_list_to_dataframe is
not under src/; per spec sections 3 and 8 it converts the row format to the
columnar format preserving rows, columns and values: one column per schema
field, holding that field's value from each record in order. -/
def records_list_to_dataframe {F V : Type} [DecidableEq F]
    (records : RecordsList F V) (otype : ObjectType F) : DataFrame F V :=
  otype.fields.map (fun f => (f, records.filterMap (lookupField f)))

/-- Modelled from the spec: dags/utils/pandas.dataframe_to_records_list is
not under src/; per spec sections 3 and 8 it converts the columnar format
to the row format preserving rows, columns and values: one record per row
index, pairing each column name with that column's value at the index. -/
def dataframe_to_records_list {F V : Type}
    (df : DataFrame F V) (_otype : ObjectType F) : RecordsList F V :=
  let nrows := ((df.head?).map (fun c => c.2.length)).getD 0
  (List.range nrows).map (fun i =>
    df.filterMap (fun c => (c.2.get? i).map (fun v => (c.1, v))))

/-- Embedding of MemoryToMemoryConverter.records_list_generator_to_records_list
(memory_to_memory.py lines 86-92): extend an initially empty list with each
chunk the generator yields. -/
def records_list_generator_to_records_list {F V : Type}
    (chunks : List (RecordsList F V)) : RecordsList F V :=
  chunks.foldl (fun all_ dl => all_ ++ dl) []

/-- Embedding of MemoryToMemoryConverter.records_list_generator_to_dataframe
(memory_to_memory.py lines 94-99): collect the generator to a records list,
then convert that to a dataframe. -/
def records_list_generator_to_dataframe {F V : Type} [DecidableEq F]
    (chunks : List (RecordsList F V)) (otype : ObjectType F) : DataFrame F V :=
  records_list_to_dataframe (records_list_generator_to_records_list chunks) otype

/-- Modelled from the spec: pandas.concat as used by
dataframe_generator_to_dataframe; appends the chunks' rows column-wise,
keyed by the leading chunk's column names. -/
def concatDataFrames {F V : Type} [DecidableEq F]
    (ds : List (DataFrame F V)) : DataFrame F V :=
  match ds with
  | [] => []
  | d :: rest =>
    d.map (fun c =>
      (c.1, c.2 ++ rest.flatMap (fun d2 => (((d2.find? (fun c2 => decide (c2.1 = c.1))).map Prod.snd).getD []))))

/-- Embedding of MemoryToMemoryConverter.dataframe_generator_to_dataframe
(memory_to_memory.py lines 108-114): append each yielded dataframe chunk
and concatenate. -/
def dataframe_generator_to_dataframe {F V : Type} [DecidableEq F]
    (chunks : List (DataFrame F V)) : DataFrame F V :=
  concatDataFrames (chunks.foldl (fun all_ dl => all_ ++ [dl]) [])

/-- Embedding of MemoryToMemoryConverter.dataframe_generator_to_records_list
(memory_to_memory.py lines 101-106): concatenate the generator to a
dataframe, then convert that to a records list. -/
def dataframe_generator_to_records_list {F V : Type} [DecidableEq F]
    (chunks : List (DataFrame F V)) (otype : ObjectType F) : RecordsList F V :=
  dataframe_to_records_list (dataframe_generator_to_dataframe chunks) otype

/-! ## The memory-to-memory converter -/

/-- Storage types referenced by memory_to_memory.py (StorageType.DICT_MEMORY). -/
inductive StorageType : Type
  | dictMemory
deriving DecidableEq, Repr

/-- A (storage, format) pair, one node of the converter graph
(dags.core.conversion.converter.StorageFormat). -/
structure StorageFormat : Type where
  storage : StorageType
  format : MemDataFormat
deriving DecidableEq, Repr

/-- Modelled from the spec: conversion/converter.py is not under src/; per
spec section 4.3 a converter declares one cost for all edges it
contributes, and memory_to_memory.py names the level
ConversionCostLevel.MEMORY. -/
inductive ConversionCostLevel : Type
  | memory
deriving DecidableEq, Repr

/-- MemoryToMemoryConverter.supported_input_formats (memory_to_memory.py
lines 28-33). -/
def MemoryToMemoryConverter.supported_input_formats : List StorageFormat :=
  [⟨StorageType.dictMemory, MemDataFormat.dataFrameFormat⟩,
   ⟨StorageType.dictMemory, MemDataFormat.recordsListFormat⟩,
   ⟨StorageType.dictMemory, MemDataFormat.recordsListGeneratorFormat⟩,
   ⟨StorageType.dictMemory, MemDataFormat.dataFrameGeneratorFormat⟩]

/-- MemoryToMemoryConverter.supported_output_formats (memory_to_memory.py
lines 34-37). -/
def MemoryToMemoryConverter.supported_output_formats : List StorageFormat :=
  [⟨StorageType.dictMemory, MemDataFormat.recordsListFormat⟩,
   ⟨StorageType.dictMemory, MemDataFormat.dataFrameFormat⟩]

/-- MemoryToMemoryConverter.cost_level (memory_to_memory.py line 38): one
cost level for the whole converter. -/
def MemoryToMemoryConverter.cost_level : ConversionCostLevel :=
  ConversionCostLevel.memory

/-- The edges this converter contributes to the converter graph: every
supported input paired with every supported output. -/
def MemoryToMemoryConverter.conversion_edges : List (StorageFormat × StorageFormat) :=
  MemoryToMemoryConverter.supported_input_formats.flatMap
    (fun i => MemoryToMemoryConverter.supported_output_formats.map (fun o => (i, o)))

/-- The declared cost of one conversion edge: the converter's single cost
level, whatever the edge (memory_to_memory.py line 38 declares no
per-edge nuance; the TODO at lines 23-26 records that none exists). -/
def MemoryToMemoryConverter.edge_cost (_ : StorageFormat × StorageFormat) : ConversionCostLevel :=
  MemoryToMemoryConverter.cost_level

/-- The conversion dispatch table of MemoryToMemoryConverter._convert
(memory_to_memory.py lines 46-71): keyed by (input format, output format);
an absent key raises NotImplementedError (None here). The payload
constructor must match the input format, as the stored records object does
in the Python source. -/
def convert_object {F V : Type} [DecidableEq F]
    (inFmt outFmt : MemDataFormat) (obj : RecordsObject F V) (otype : ObjectType F) :
    Option (RecordsObject F V) :=
  match inFmt, outFmt, obj with
  | MemDataFormat.dataFrameFormat, MemDataFormat.recordsListFormat, RecordsObject.df d =>
    some (RecordsObject.rl (dataframe_to_records_list d otype))
  | MemDataFormat.recordsListFormat, MemDataFormat.dataFrameFormat, RecordsObject.rl r =>
    some (RecordsObject.df (records_list_to_dataframe r otype))
  | MemDataFormat.recordsListGeneratorFormat, MemDataFormat.dataFrameFormat, RecordsObject.rlg cs =>
    some (RecordsObject.df (records_list_generator_to_dataframe cs otype))
  | MemDataFormat.recordsListGeneratorFormat, MemDataFormat.recordsListFormat, RecordsObject.rlg cs =>
    some (RecordsObject.rl (records_list_generator_to_records_list cs))
  | MemDataFormat.dataFrameGeneratorFormat, MemDataFormat.dataFrameFormat, RecordsObject.dfg cs =>
    some (RecordsObject.df (dataframe_generator_to_dataframe cs))
  | MemDataFormat.dataFrameGeneratorFormat, MemDataFormat.recordsListFormat, RecordsObject.dfg cs =>
    some (RecordsObject.rl (dataframe_generator_to_records_list cs otype))
  | _, _, _ => none

/-- Metadata of a stored data block replica as _convert consumes it: its
identity in the memory store, its data format, and its realized schema
(StoredDataBlockMetadata, get_realized_otype). -/
structure SDBMeta (F : Type) : Type where
  id : Nat
  data_format : MemDataFormat
  realized_otype : ObjectType F

/-- Local memory storage: the mapping from stored-data-block id to the
records object held for it (LocalMemoryStorageEngine). -/
abbrev MemoryStore (F V : Type) := Nat → Option (RecordsObject F V)

/-- LocalMemoryStorageEngine.store_local_memory_data_records: record the
records object under the output block's id. -/
def store_local_memory_data_records {F V : Type}
    (store : MemoryStore F V) (sdbId : Nat) (obj : RecordsObject F V) : MemoryStore F V :=
  fun k => if k = sdbId then some obj else store k

/-- Failure modes of _convert: the input replica is absent from memory, or
the format pair has no entry in the lookup table (NotImplementedError). -/
inductive ConvertError : Type
  | missingInputRecords
  | notImplemented (pair : MemDataFormat × MemDataFormat)
deriving DecidableEq

/-- Embedding of MemoryToMemoryConverter._convert (memory_to_memory.py
lines 40-74): read the input replica's records from memory, dispatch on
the (input format, output format) pair, and store the converted records
object under the output replica's id. Returns the updated memory store. -/
def MemoryToMemoryConverter.convert {F V : Type} [DecidableEq F]
    (store : MemoryStore F V) (input_sdb output_sdb : SDBMeta F) :
    Except ConvertError (MemoryStore F V) :=
  match store input_sdb.id with
  | none => Except.error ConvertError.missingInputRecords
  | some input_obj =>
    match convert_object input_sdb.data_format output_sdb.data_format input_obj
        input_sdb.realized_otype with
    | none => Except.error (ConvertError.notImplemented
        (input_sdb.data_format, output_sdb.data_format))
    | some out_obj => Except.ok (store_local_memory_data_records store output_sdb.id out_obj)

/-! ## Pipe invocation outcomes and the per-node driver -/

/-- The tagged outcome of one pipe invocation. The Python source signals
these through dags.core.pipe (pipe.py lines 21-27): a returned value is
Produced, a raised InputExhaustedException — a PipeException subclass used
purely as a control signal — is Exhausted, and any other raised exception
is Failed. -/
inductive PipeResult (V E : Type) : Type
  | produced (v : V)
  | exhausted
  | failed (e : E)
deriving DecidableEq

/-- Modelled from the spec: runnable.py (the run-to-exhaustion driver) is
not under src/. Per spec section 4.5 steps 3-6: invoke the pipe; on
Produced register the output and invoke again; on Exhausted stop the loop
normally; on Failed abort and propagate. `invoke k` is the outcome of the
invocation after k blocks have been produced; fuel bounds the loop. -/
def run_to_exhaustion {V E : Type} (invoke : Nat → PipeResult V E) :
    Nat → List V → Except E (List V)
  | 0, acc => Except.ok acc
  | fuel + 1, acc =>
    match invoke acc.length with
    | PipeResult.produced v => run_to_exhaustion invoke fuel (acc ++ [v])
    | PipeResult.exhausted => Except.ok acc
    | PipeResult.failed e => Except.error e

/-! ## The static extract_dataframe pipe -/

/-- ExtractDataFrameConfig (dags/modules/core/pipes/static.py lines 19-22):
the configured dataframe and optional declared schema. -/
structure ExtractDataFrameConfig (D S : Type) : Type where
  dataframe : D
  schema : Option S

/-- Embedding of the extract_dataframe pipe (dags/modules/core/pipes
/static.py lines 31-40; the basis variant at external/static.py lines
30-36 omits only the schema step): read the execution-state value
"extracted" (None when unset); if it is truthy, return nothing and leave
the state as it is; otherwise set "extracted" to True, set the output
schema when one is configured, and return the configured dataframe.
Result: (returned value, new "extracted" state value, output schema set). -/
def extract_dataframe {D S : Type} (cfg : ExtractDataFrameConfig D S)
    (extracted : Option Bool) : Option D × Option Bool × Option S :=
  if extracted.getD false then
    (none, extracted, none)
  else
    (some cfg.dataframe, some true, cfg.schema)

/-- Modelled from the spec: runnable.py is not under src/. Per spec section
4.5 step 4, after a produced output the driver invokes the pipe again, and
stops when Produced stops occurring (a return of None) — threading the
pipe's state through successive invocations. Returns the produced values
and the final state. -/
def run_pipe_to_exhaustion {V S : Type} (step : S → Option V × S) :
    Nat → S → List V × S
  | 0, s => ([], s)
  | fuel + 1, s =>
    match step s with
    | (some v, s1) =>
      let rest := run_pipe_to_exhaustion step fuel s1
      (v :: rest.1, rest.2)
    | (none, s1) => ([], s1)

/-- One invocation of extract_dataframe as the driver sees it: the produced
value and the updated "extracted" state (the schema side channel is not
part of the state). -/
def extract_dataframe_step {D S : Type} (cfg : ExtractDataFrameConfig D S)
    (s : Option Bool) : Option D × Option Bool :=
  ((extract_dataframe cfg s).1, (extract_dataframe cfg s).2.1)

/-! ## The accumulator pipe -/

/-- Embedding of dataframe_accumulator (basis/modules/core/functions
/accumulator.py lines 92-100): records = input rows; when the
self-reference argument `this` is bound, records = previous rows appended
with the input rows (pandas DataFrame.append puts `this` first); rows are
kept in row form here since only row content is at stake. -/
def dataframe_accumulator {R : Type} (input : List R) (this : Option (List R)) : List R :=
  match this with
  | none => input
  | some previous => previous ++ input

/-- Modelled from the spec: the interface resolver (pipe_interface.py) is
not under src/. Per spec section 4.4, a self-reference slot binds to the
node's own prior output unchanged if one exists, else is omitted. -/
def bind_self_reference {R : Type} (prior_output : Option (List R)) : Option (List R) :=
  prior_output

/-! ## Schema inference from a records-list generator -/

/-- Modelled from the spec: data_formats/__init__.get_records_list_sample
is not under src/; it draws a sample of records from the generator's
chunks, None when the generator yields no record at all. -/
def get_records_list_sample {F V : Type} (chunks : List (RecordsList F V)) :
    Option (RecordsList F V) :=
  if (chunks.flatMap id).isEmpty then none else some (chunks.flatMap id)

/-- Modelled from the spec: dags.core.typing.inference
.infer_otype_from_records_list is not under src/; it infers a record-type
descriptor from the sampled records' fields. -/
def infer_otype_from_records_list {F V : Type} (dl : RecordsList F V) : ObjectType F :=
  ⟨((dl.head?).getD []).map Prod.fst⟩

/-- The error raised by RecordsListGeneratorFormat.infer_otype_from_records
on an empty records object (records_list_generator.py line 37). -/
inductive InferenceError : Type
  | emptyRecordsObject
deriving DecidableEq

/-- Embedding of RecordsListGeneratorFormat.infer_otype_from_records
(records_list_generator.py lines 30-39): draw a sample records list from
the generator; if none can be drawn, raise ValueError, otherwise infer
the schema from the sample. -/
def RecordsListGeneratorFormat.infer_otype_from_records {F V : Type}
    (records : List (RecordsList F V)) : Except InferenceError (ObjectType F) :=
  match get_records_list_sample records with
  | none => Except.error InferenceError.emptyRecordsObject
  | some dl => Except.ok (infer_otype_from_records_list dl)

/-! ## Sample data used by witnesses -/

/-- A three-node chain graph: node 2 depends on node 1, which depends on
node 0. -/
def sample_graph : Graph :=
  ⟨[0, 1, 2], fun k => if k = 2 then [1] else if k = 1 then [0] else []⟩

/-- A per-node run outcome that always succeeds, producing the node id. -/
def sample_run : Nat → Except Nat (Option Nat) :=
  fun k => Except.ok (some k)

/-- A memory store holding one records-list replica under id 0. -/
def sample_store : MemoryStore Nat Nat :=
  fun k => if k = 0 then some (RecordsObject.rl [[(1, 10)]]) else none

/-- Metadata of the input replica stored under id 0. -/
def sample_input_sdb : SDBMeta Nat :=
  ⟨0, MemDataFormat.recordsListFormat, ⟨[1]⟩⟩

/-- Metadata of the output replica to be written under id 1. -/
def sample_output_sdb : SDBMeta Nat :=
  ⟨1, MemDataFormat.dataFrameFormat, ⟨[1]⟩⟩

/-- The memory store after converting replica 0 into replica 1. -/
def sample_converted_store : MemoryStore Nat Nat :=
  store_local_memory_data_records sample_store 1
    (RecordsObject.df (records_list_to_dataframe [[(1, 10)]] ⟨[1]⟩))

/-! ## Theorems -/

/-- C2. For every scope opened by Environment.execution or
Environment.session_scope: work completing without raising commits the
session; a raised exception rolls the session back and is re-raised; and
in both cases the session is closed last. -/
theorem scope_commit_rollback_close {E A : Type} (body : Except E A) :
    (session_scope body).1 = body ∧
    (execution body).1 = body ∧
    ((∃ a, body = Except.ok a) →
      (session_scope body).2 = [SessEvent.opened, SessEvent.committed, SessEvent.closed] ∧
      (execution body).2 = [SessEvent.opened, SessEvent.committed, SessEvent.closed]) ∧
    ((∃ e, body = Except.error e) →
      (session_scope body).2 = [SessEvent.opened, SessEvent.rolledBack, SessEvent.closed] ∧
      (execution body).2 = [SessEvent.opened, SessEvent.rolledBack, SessEvent.closed]) ∧
    ((session_scope body).2.getLast? = some SessEvent.closed ∧
      (execution body).2.getLast? = some SessEvent.closed) := by
  cases body <;> simp [session_scope, execution]

/-- Witness for C2 at the concrete outcomes ok 3 and error 7. -/
theorem scope_commit_rollback_close_witness :
    (session_scope (Except.ok 3 : Except Unit Nat)).2 =
      [SessEvent.opened, SessEvent.committed, SessEvent.closed] ∧
    (execution (Except.error 7 : Except Nat Nat)).2 =
      [SessEvent.opened, SessEvent.rolledBack, SessEvent.closed] :=
  ⟨((scope_commit_rollback_close (Except.ok 3)).2.2.1 ⟨3, rfl⟩).1,
   ((scope_commit_rollback_close (Except.error 7)).2.2.2.1 ⟨7, rfl⟩).2⟩

/-- C6. The accumulator pipe: with the self-reference argument absent its
output is exactly the input's rows; with it bound to the prior output, the
output is the prior rows followed by the new input rows; and the engine's
self-reference binding passes the prior output through unchanged. -/
theorem accumulator_self_binding_semantics {R : Type}
    (input : List R) (prior : Option (List R)) :
    dataframe_accumulator input (bind_self_reference none) = input ∧
    (∀ previous : List R,
      dataframe_accumulator input (bind_self_reference (some previous)) = previous ++ input) ∧
    bind_self_reference prior = prior := by
  refine ⟨rfl, fun previous => rfl, rfl⟩

/-- C8. A pipe invocation's outcome is one of exactly three tags —
Produced, Exhausted, Failed — an Exhausted outcome ends the exhaustion
loop normally with the blocks produced so far, and the loop only
propagates an error that some invocation actually failed with: Exhausted
is never propagated like a failure. -/
theorem pipe_result_trichotomy_exhausted_benign {V E : Type} :
    (∀ r : PipeResult V E,
      (∃ v, r = PipeResult.produced v) ∨ r = PipeResult.exhausted ∨
        (∃ e, r = PipeResult.failed e)) ∧
    (∀ (invoke : Nat → PipeResult V E) (fuel : Nat) (acc : List V),
      invoke acc.length = PipeResult.exhausted →
        run_to_exhaustion invoke (fuel + 1) acc = Except.ok acc) ∧
    (∀ (invoke : Nat → PipeResult V E) (fuel : Nat) (acc : List V) (e : E),
      run_to_exhaustion invoke fuel acc = Except.error e →
        ∃ k, invoke k = PipeResult.failed e) := by
  refine ⟨?_, ?_, ?_⟩
  · intro r
    cases r with
    | produced v => exact Or.inl ⟨v, rfl⟩
    | exhausted => exact Or.inr (Or.inl rfl)
    | failed e => exact Or.inr (Or.inr ⟨e, rfl⟩)
  · intro invoke fuel acc h
    simp [run_to_exhaustion, h]
  · intro invoke fuel
    induction fuel with
    | zero => intro acc e h; simp [run_to_exhaustion] at h
    | succ fuel ih =>
      intro acc e h
      rw [run_to_exhaustion] at h
      cases hinv : invoke acc.length with
      | produced v =>
        rw [hinv] at h
        exact ih (acc ++ [v]) e h
      | exhausted => rw [hinv] at h; simp at h
      | failed e2 =>
        rw [hinv] at h
        simp at h
        exact ⟨acc.length, by rw [hinv, h]⟩

/-- Witness for C8: an immediately exhausted pipe terminates the loop
normally with no blocks. -/
theorem pipe_result_trichotomy_exhausted_benign_witness :
    run_to_exhaustion (fun _ => (PipeResult.exhausted : PipeResult Nat Nat)) 1 [] =
      Except.ok [] :=
  (pipe_result_trichotomy_exhausted_benign).2.1 (fun _ => PipeResult.exhausted) 0 [] rfl

/-- Once the "extracted" state value is set, any further driver iterations
produce nothing and leave the state fixed. -/
theorem run_pipe_to_exhaustion_extracted_fixed {D S : Type}
    (cfg : ExtractDataFrameConfig D S) (fuel : Nat) :
    run_pipe_to_exhaustion (extract_dataframe_step cfg) fuel (some true) =
      ([], some true) := by
  cases fuel with
  | zero => rfl
  | succ fuel => simp [run_pipe_to_exhaustion, extract_dataframe_step, extract_dataframe]

/-- C9. The static extract_dataframe pipe emits its configured value
exactly once: when "extracted" is not yet truthy the invocation sets it
and returns the configured dataframe; when it is set the invocation
returns nothing and leaves the state unchanged; so the driver's repeated
invocation yields exactly one block. -/
theorem extract_dataframe_emits_exactly_once {D S : Type}
    (cfg : ExtractDataFrameConfig D S) (st : Option Bool) (fuel : Nat)
    (hunset : st.getD false = false) (hfuel : 1 ≤ fuel) :
    extract_dataframe cfg st = (some cfg.dataframe, some true, cfg.schema) ∧
    (∀ st2 : Option Bool, st2.getD false = true →
      extract_dataframe cfg st2 = (none, st2, none)) ∧
    run_pipe_to_exhaustion (extract_dataframe_step cfg) fuel st =
      ([cfg.dataframe], some true) := by
  refine ⟨by simp [extract_dataframe, hunset], ?_, ?_⟩
  · intro st2 hset
    simp [extract_dataframe, hset]
  · cases fuel with
    | zero => omega
    | succ fuel =>
      rw [run_pipe_to_exhaustion]
      have hstep : extract_dataframe_step cfg st = (some cfg.dataframe, some true) := by
        simp [extract_dataframe_step, extract_dataframe, hunset]
      rw [hstep]
      simp [run_pipe_to_exhaustion_extracted_fixed]

/-- Witness for C9: a concrete config with dataframe 5 and no schema,
starting from unset state, two iterations of fuel. -/
theorem extract_dataframe_emits_exactly_once_witness :
    run_pipe_to_exhaustion
      (extract_dataframe_step (⟨5, none⟩ : ExtractDataFrameConfig Nat Nat)) 2 none =
      ([5], some true) :=
  (extract_dataframe_emits_exactly_once ⟨5, none⟩ none 2 rfl (by omega)).2.2

/-- C10. Schema inference for a records-list generator: when the generator
yields no record at all, inference fails with the empty-records error
rather than returning a schema, and any schema it does return came from a
generator with at least one record. -/
theorem infer_otype_requires_a_record {F V : Type} (records : List (RecordsList F V)) :
    (records.flatMap id = [] →
      RecordsListGeneratorFormat.infer_otype_from_records records =
        Except.error InferenceError.emptyRecordsObject) ∧
    (∀ t, RecordsListGeneratorFormat.infer_otype_from_records records = Except.ok t →
      records.flatMap id ≠ []) := by
  constructor
  · intro h
    simp [RecordsListGeneratorFormat.infer_otype_from_records, get_records_list_sample, h]
  · intro t h hempty
    simp [RecordsListGeneratorFormat.infer_otype_from_records, get_records_list_sample,
      hempty] at h

/-- Witness for C10: a generator yielding two empty chunks raises the
empty-records error. -/
theorem infer_otype_requires_a_record_witness :
    RecordsListGeneratorFormat.infer_otype_from_records
      ([[], []] : List (RecordsList Nat Nat)) =
      Except.error InferenceError.emptyRecordsObject :=
  (infer_otype_requires_a_record [[], []]).1 rfl

/-- C4 counterexample. The claim asserts that an edge into a non-streaming
(materialized) format is penalized relative to an edge into a
streaming-capable format. On the code there is no such penalty: no pair of
conversion edges from the same source differs in declared cost between a
materialized and a streaming target (indeed every declared edge carries
the single MEMORY cost level, and no streaming-capable output exists). -/
theorem memory_converter_no_streaming_penalty :
    ¬ ∃ e1, e1 ∈ MemoryToMemoryConverter.conversion_edges ∧
      ∃ e2, e2 ∈ MemoryToMemoryConverter.conversion_edges ∧
        e1.1 = e2.1 ∧
        e1.2.format.is_streamable = false ∧
        e2.2.format.is_streamable = true ∧
        MemoryToMemoryConverter.edge_cost e1 ≠ MemoryToMemoryConverter.edge_cost e2 := by
  decide

/-- C4 amended. Every conversion edge declared by MemoryToMemoryConverter
carries the same single MEMORY cost level, all of its supported output
formats are non-streaming (materialized), and a one-hop edge collapsing a
records-list generator directly into a dataframe is among the declared
edges — so nothing in the declared costs keeps a lazy format from being
materialized on the first memory-to-memory hop (the TODO at
memory_to_memory.py lines 23-26 records exactly this missing nuance). -/
theorem memory_converter_uniform_cost :
    (∀ e ∈ MemoryToMemoryConverter.conversion_edges,
      MemoryToMemoryConverter.edge_cost e = ConversionCostLevel.memory) ∧
    (∀ f ∈ MemoryToMemoryConverter.supported_output_formats,
      f.format.is_streamable = false) ∧
    (⟨StorageType.dictMemory, MemDataFormat.recordsListGeneratorFormat⟩,
      (⟨StorageType.dictMemory, MemDataFormat.dataFrameFormat⟩ : StorageFormat)) ∈
      MemoryToMemoryConverter.conversion_edges := by
  decide

/-- Witness for C4 amended, at the edge from the records-list generator
format into the records-list format. -/
theorem memory_converter_uniform_cost_witness :
    MemoryToMemoryConverter.edge_cost
      (⟨StorageType.dictMemory, MemDataFormat.recordsListGeneratorFormat⟩,
        (⟨StorageType.dictMemory, MemDataFormat.recordsListFormat⟩ : StorageFormat)) =
      ConversionCostLevel.memory :=
  memory_converter_uniform_cost.1 _ (by decide)

/-- C7. A memory-to-memory conversion never mutates the existing replica:
after a successful conversion the input replica's stored records are
unchanged, every replica other than the output is unchanged, and the
output id — distinct from the input id — now holds exactly the converted
records object, a new replica. -/
theorem convert_never_mutates_input {F V : Type} [DecidableEq F]
    (store store2 : MemoryStore F V) (input_sdb output_sdb : SDBMeta F)
    (hdistinct : input_sdb.id ≠ output_sdb.id)
    (hconv : MemoryToMemoryConverter.convert store input_sdb output_sdb = Except.ok store2) :
    store2 input_sdb.id = store input_sdb.id ∧
    (∀ k, k ≠ output_sdb.id → store2 k = store k) ∧
    (∃ input_obj out_obj,
      store input_sdb.id = some input_obj ∧
      convert_object input_sdb.data_format output_sdb.data_format input_obj
        input_sdb.realized_otype = some out_obj ∧
      store2 output_sdb.id = some out_obj) := by
  unfold MemoryToMemoryConverter.convert at hconv
  cases hin : store input_sdb.id with
  | none => simp [hin] at hconv
  | some input_obj =>
    cases hobj : convert_object input_sdb.data_format output_sdb.data_format input_obj
        input_sdb.realized_otype with
    | none => simp [hin, hobj] at hconv
    | some out_obj =>
      simp [hin, hobj] at hconv
      subst hconv
      refine ⟨?_, ?_, input_obj, out_obj, rfl, hobj, ?_⟩
      · simp [store_local_memory_data_records, hdistinct, hin]
      · intro k hk
        simp [store_local_memory_data_records, hk]
      · simp [store_local_memory_data_records]

/-- Witness for C7 at the sample store: converting replica 0 (records
list) into replica 1 (dataframe) leaves replica 0 and unrelated id 5
untouched and writes the converted object under id 1. -/
theorem convert_never_mutates_input_witness :
    sample_converted_store 0 = sample_store 0 ∧
    sample_converted_store 5 = sample_store 5 ∧
    (∃ input_obj out_obj,
      sample_store sample_input_sdb.id = some input_obj ∧
      convert_object sample_input_sdb.data_format sample_output_sdb.data_format input_obj
        sample_input_sdb.realized_otype = some out_obj ∧
      sample_converted_store sample_output_sdb.id = some out_obj) := by
  have h := convert_never_mutates_input sample_store sample_converted_store
    sample_input_sdb sample_output_sdb (by decide) rfl
  exact ⟨h.1, h.2.1 5 (by decide), h.2.2⟩

/-- The produce loop over a dependency list whose prefix succeeds and whose
next node fails: the prefix nodes each ran in a committed scope, the
failing node's scope is rolled back, nothing after it runs, and the error
is what the loop returns. -/
theorem produceLoop_failure {E B : Type} (run : Nat → Except E (Option B))
    (pre : List Nat) (d : Nat) (post : List Nat) (e : E)
    (hok : ∀ x ∈ pre, ∃ b, run x = Except.ok b)
    (hfail : run d = Except.error e) :
    ∀ out : Option B,
      produceLoop run (pre ++ d :: post) out =
        (Except.error e,
          pre.map (fun x => (x, [SessEvent.opened, SessEvent.committed, SessEvent.closed])) ++
            [(d, [SessEvent.opened, SessEvent.rolledBack, SessEvent.closed])]) := by
  induction pre with
  | nil =>
    intro out
    simp only [List.nil_append, List.map_nil]
    rw [produceLoop, hfail]
    simp [execution]
  | cons x xs ih =>
    intro out
    obtain ⟨b, hb⟩ := hok x (by simp)
    simp only [List.cons_append, List.map_cons]
    rw [produceLoop, hb]
    simp only [execution]
    rw [ih (fun y hy => hok y (by simp [hy])) b]

/-- C3. For a produce call over a dependency chain, if the k-th node in
execution order fails then: the first k-1 nodes' scopes were separately
committed before the failure, the failing node's scope is rolled back, no
node after the k-th is executed, and the failure propagates out of
produce. -/
theorem produce_failure_isolation {E B : Type} (run : Nat → Except E (Option B))
    (pre : List Nat) (d : Nat) (post : List Nat) (e : E)
    (hok : ∀ x ∈ pre, ∃ b, run x = Except.ok b)
    (hfail : run d = Except.error e) :
    (produce run (pre ++ d :: post)).1 = Except.error e ∧
    (produce run (pre ++ d :: post)).2 =
      pre.map (fun x => (x, [SessEvent.opened, SessEvent.committed, SessEvent.closed])) ++
        [(d, [SessEvent.opened, SessEvent.rolledBack, SessEvent.closed])] := by
  rw [produce, produceLoop_failure run pre d post e hok hfail none]
  exact ⟨rfl, rfl⟩

/-- Witness for C3: over the chain [0, 1, 2] with node 1 failing with
error 9, node 0's scope commits, node 1's rolls back, node 2 never runs,
and error 9 propagates. -/
theorem produce_failure_isolation_witness :
    (produce (fun k => if k = 1 then Except.error 9 else Except.ok (some k))
        ([0] ++ 1 :: [2])).1 = Except.error 9 ∧
    (produce (fun k => if k = 1 then Except.error 9 else Except.ok (some k))
        ([0] ++ 1 :: [2])).2 =
      [(0, [SessEvent.opened, SessEvent.committed, SessEvent.closed]),
       (1, [SessEvent.opened, SessEvent.rolledBack, SessEvent.closed])] := by
  have h := produce_failure_isolation
    (fun k => if k = 1 then Except.error 9 else Except.ok ((some k : Option Nat)))
    [0] 1 [2] 9 (by intro x hx; simp at hx; subst hx; exact ⟨some 0, rfl⟩) rfl
  simpa using h

/-- The produce loop over a dependency list on which every node succeeds:
its trace runs exactly the listed nodes in order, each in a fresh
committed scope, and its outcome is the last node's outcome (the starting
output when the list is empty). -/
theorem produceLoop_all_ok {E B : Type} (run : Nat → Except E (Option B)) :
    ∀ (deps : List Nat) (out : Option B),
      (∀ x ∈ deps, ∃ b, run x = Except.ok b) →
      (produceLoop run deps out).2.map Prod.fst = deps ∧
      (∀ p ∈ (produceLoop run deps out).2,
        p.2 = [SessEvent.opened, SessEvent.committed, SessEvent.closed]) ∧
      (produceLoop run deps out).1 =
        (match deps.getLast? with
         | none => Except.ok out
         | some dd => run dd) := by
  intro deps
  induction deps with
  | nil =>
    intro out _
    exact ⟨rfl, by simp [produceLoop], rfl⟩
  | cons x xs ih =>
    intro out hok
    obtain ⟨b, hb⟩ := hok x (by simp)
    have ihx := ih b (fun y hy => hok y (by simp [hy]))
    constructor
    · rw [produceLoop, hb]
      simp only [execution]
      simpa using ihx.1
    constructor
    · rw [produceLoop, hb]
      simp only [execution]
      intro p hp
      simp at hp
      rcases hp with h | h
      · rw [h]
      · exact ihx.2.1 p h
    · rw [produceLoop, hb]
      simp only [execution]
      cases hxs : xs with
      | nil => simp [produceLoop, hb]
      | cons y ys =>
        have h1 := ihx.2.2
        rw [hxs] at h1
        rw [List.getLast?_cons_cons]
        simpa [hxs] using h1

/-- C1. produce over an execution order — the transitive upstream
dependency closure of the requested node in topological order — executes,
within the one call, exactly the nodes of that closure in that order (all
of them, upstreams before dependents, finishing with the requested node),
each inside its own fresh committed transactional scope, and returns the
outcome of the last node executed. -/
theorem produce_executes_upstream_closure {E B : Type} (g : Graph) (n : Nat)
    (order : List Nat) (run : Nat → Except E (Option B))
    (horder : IsExecutionOrder g n order)
    (hok : ∀ x ∈ order, ∃ b, run x = Except.ok b) :
    ((produce run order).2.map Prod.fst = order) ∧
    (∀ p ∈ (produce run order).2,
      p.2 = [SessEvent.opened, SessEvent.committed, SessEvent.closed]) ∧
    (∀ m, InClosure g n m → m ∈ (produce run order).2.map Prod.fst) ∧
    (∀ m ∈ (produce run order).2.map Prod.fst, InClosure g n m) ∧
    (((produce run order).2.map Prod.fst).getLast? = some n) ∧
    (((produce run order).2.map Prod.fst).Pairwise (fun a b => b ∉ g.upstream a)) ∧
    (produce run order).1 = run n := by
  obtain ⟨hnodup, hsound, hcomplete, hlast, hpair⟩ := horder
  have hloop := produceLoop_all_ok run order none hok
  have htrace : (produce run order).2.map Prod.fst = order := hloop.1
  refine ⟨htrace, hloop.2.1, ?_, ?_, ?_, ?_, ?_⟩
  · intro m hm
    rw [htrace]
    exact hcomplete m hm
  · intro m hm
    rw [htrace] at hm
    exact hsound m hm
  · rw [htrace]; exact hlast
  · rw [htrace]; exact hpair
  · have h1 := hloop.2.2
    rw [hlast] at h1
    exact h1

/-- Witness for C1: the chain graph 0 <- 1 <- 2 with execution order
[0, 1, 2] and an always-succeeding run; produce runs 0, 1, 2 in order and
returns node 2's outcome. -/
theorem produce_executes_upstream_closure_witness :
    (produce sample_run [0, 1, 2]).2.map Prod.fst = [0, 1, 2] ∧
    (produce sample_run [0, 1, 2]).1 = sample_run 2 := by
  have horder : IsExecutionOrder sample_graph 2 [0, 1, 2] := by
    refine ⟨by decide, ?_, ?_, by decide, by decide⟩
    · intro m hm
      simp at hm
      rcases hm with h | h | h
      · subst h
        exact Relation.ReflTransGen.tail
          (Relation.ReflTransGen.single (by decide : (1 : Nat) ∈ sample_graph.upstream 2))
          (by decide : (0 : Nat) ∈ sample_graph.upstream 1)
      · subst h
        exact Relation.ReflTransGen.single (by decide)
      · subst h
        exact Relation.ReflTransGen.refl
    · intro m hm
      rcases hm.cases_head with h | ⟨c, hc, hm1⟩
      · simp [h.symm]
      · have hc1 : c = 1 := by
          have : c ∈ sample_graph.upstream 2 := hc
          simpa [sample_graph] using this
        subst hc1
        rcases hm1.cases_head with h | ⟨c2, hc2, hm2⟩
        · simp [h.symm]
        · have hc0 : c2 = 0 := by
            have : c2 ∈ sample_graph.upstream 1 := hc2
            simpa [sample_graph] using this
          subst hc0
          rcases hm2.cases_head with h | ⟨c3, hc3, _⟩
          · simp [h.symm]
          · have : c3 ∈ sample_graph.upstream 0 := hc3
            simp [sample_graph] at this
  have h := produce_executes_upstream_closure sample_graph 2 [0, 1, 2] sample_run horder
    (by intro x hx; exact ⟨some x, rfl⟩)
  exact ⟨h.1, h.2.2.2.2.2.2⟩

/-! ### Round-trip machinery for the row/columnar converters -/

/-- A filterMap by an everywhere-defined function keeps the length. -/
theorem length_filterMap_of_isSome {α β : Type} (g : α → Option β) :
    ∀ l : List α, (∀ x ∈ l, (g x).isSome) → (l.filterMap g).length = l.length := by
  intro l
  induction l with
  | nil => intro _; rfl
  | cons x xs ih =>
    intro h
    obtain ⟨y, hy⟩ := Option.isSome_iff_exists.mp (h x (by simp))
    rw [List.filterMap_cons, hy]
    simp [ih (fun z hz => h z (by simp [hz]))]

/-- A filterMap by an everywhere-defined function indexes like a map. -/
theorem get?_filterMap_of_isSome {α β : Type} (g : α → Option β) :
    ∀ (l : List α) (j : Nat), (∀ x ∈ l, (g x).isSome) →
      (l.filterMap g).get? j = (l.get? j).bind g := by
  intro l
  induction l with
  | nil => intro j _; simp
  | cons x xs ih =>
    intro j h
    obtain ⟨y, hy⟩ := Option.isSome_iff_exists.mp (h x (by simp))
    rw [List.filterMap_cons, hy]
    cases j with
    | zero => simp [hy]
    | succ j => simpa using ih j (fun z hz => h z (by simp [hz]))

/-- Looking up a field that the record carries succeeds. -/
theorem lookupField_isSome_of_mem {F V : Type} [DecidableEq F] (f : F) (r : List (F × V))
    (h : f ∈ r.map Prod.fst) : (lookupField f r).isSome := by
  rw [List.mem_map] at h
  obtain ⟨p, hp, hpf⟩ := h
  rw [lookupField]
  have : (List.find? (fun p => decide (p.1 = f)) r).isSome :=
    List.find?_isSome.mpr ⟨p, hp, by simp [hpf]⟩
  obtain ⟨q, hq⟩ := Option.isSome_iff_exists.mp this
  rw [hq]
  rfl

/-- In a record whose field names are exactly a duplicate-free field list,
looking up the i-th field returns the record's i-th value. -/
theorem lookupField_get_of_fields {F V : Type} [DecidableEq F] :
    ∀ (r : List (F × V)) (fields : List F) (i : Nat) (hi : i < fields.length),
      fields.Nodup → r.map Prod.fst = fields →
      lookupField (fields.get ⟨i, hi⟩) r = (r.map Prod.snd).get? i := by
  intro r
  induction r with
  | nil =>
    intro fields i hi _ hmap
    have hfe : fields = [] := by simpa using hmap.symm
    subst hfe
    exact absurd hi (by simp)
  | cons p r' ih =>
    intro fields i hi hnd hmap
    obtain ⟨pf, pv⟩ := p
    cases fields with
    | nil => simp at hmap
    | cons f0 fs =>
      have hm : pf = f0 ∧ r'.map Prod.fst = fs := by simpa using hmap
      cases i with
      | zero =>
        rw [lookupField, List.find?_cons]
        simp [hm.1]
      | succ i =>
        have hi' : i < fs.length := by simpa using hi
        have hget : (f0 :: fs).get ⟨i + 1, hi⟩ = fs.get ⟨i, hi'⟩ := rfl
        rw [hget]
        have hmem : fs.get ⟨i, hi'⟩ ∈ fs := List.get_mem fs i hi'
        have hne : ¬ (pf = fs.get ⟨i, hi'⟩) := by
          rw [hm.1]
          intro hh
          exact ((List.nodup_cons.mp hnd).1 (hh ▸ hmem))
        rw [lookupField, List.find?_cons]
        simp only [hne, decide_eq_true_eq, decide_eq_false_iff_not, not_false_eq_true]
        have := ih fs i hi' (List.nodup_cons.mp hnd).2 hm.2
        rw [lookupField] at this
        simpa using this

/-- Reconstructing a record field-by-field from a duplicate-free field
list that matches its own field names gives back the record. -/
theorem filterMap_lookup_reconstruct {F V : Type} [DecidableEq F] :
    ∀ (r : List (F × V)) (fields : List F),
      fields.Nodup → r.map Prod.fst = fields →
      fields.filterMap (fun f => (lookupField f r).map (fun v => (f, v))) = r := by
  intro r
  induction r with
  | nil =>
    intro fields _ hmap
    have hfe : fields = [] := by simpa using hmap.symm
    subst hfe
    rfl
  | cons p r' ih =>
    intro fields hnd hmap
    obtain ⟨pf, pv⟩ := p
    cases fields with
    | nil => simp at hmap
    | cons f0 fs =>
      have hm : pf = f0 ∧ r'.map Prod.fst = fs := by simpa using hmap
      have hnd' := List.nodup_cons.mp hnd
      rw [List.filterMap_cons]
      have hl0 : lookupField f0 ((pf, pv) :: r') = some pv := by
        rw [lookupField, List.find?_cons]
        simp [hm.1]
      rw [hl0]
      simp only [Option.map_some']
      have htail : fs.filterMap (fun f => (lookupField f ((pf, pv) :: r')).map (fun v => (f, v)))
          = fs.filterMap (fun f => (lookupField f r').map (fun v => (f, v))) := by
        apply List.filterMap_congr
        intro f hf
        have hfne : ¬ (pf = f) := by
          rw [hm.1]
          intro hh
          exact hnd'.1 (hh ▸ hf)
        rw [lookupField, lookupField, List.find?_cons]
        simp [hfne]
      rw [htail, ih fs hnd'.2 hm.2, hm.1]

/-- Indexing into a map over a range. -/
theorem get?_range_map {α : Type} (g : Nat → α) (n j : Nat) :
    ((List.range n).map g).get? j = if j < n then some (g j) else none := by
  by_cases h : j < n
  · rw [List.get?_map, List.get?_range h, if_pos h]
    rfl
  · rw [if_neg h, List.get?_eq_none.mpr (by simpa using Nat.le_of_not_lt h)]

/-- Converting a well-formed records list to a dataframe and back yields
the original records list. -/
theorem dataframe_roundtrip_records {F V : Type} [DecidableEq F]
    (records : RecordsList F V) (otype : ObjectType F)
    (hnd : otype.fields.Nodup) (hne : otype.fields ≠ [])
    (hrec : ∀ r ∈ records, r.map Prod.fst = otype.fields) :
    dataframe_to_records_list (records_list_to_dataframe records otype) otype = records := by
  obtain ⟨fields⟩ := otype
  simp only [ObjectType.mk.injEq] at *
  obtain ⟨f0, fs, rfl⟩ := List.exists_cons_of_ne_nil hne
  have hsome : ∀ f ∈ f0 :: fs, ∀ r ∈ records, (lookupField f r).isSome := by
    intro f hf r hr
    exact lookupField_isSome_of_mem f r (by rw [hrec r hr]; exact hf)
  have hlen0 : (records.filterMap (lookupField f0)).length = records.length :=
    length_filterMap_of_isSome _ records (fun r hr => hsome f0 (by simp) r hr)
  have hdf : records_list_to_dataframe records ⟨f0 :: fs⟩ =
      (f0 :: fs).map (fun f => (f, records.filterMap (lookupField f))) := rfl
  rw [hdf]
  have hun : dataframe_to_records_list
      ((f0 :: fs).map (fun f => (f, records.filterMap (lookupField f)))) ⟨f0 :: fs⟩ =
      (List.range (records.filterMap (lookupField f0)).length).map (fun j =>
        ((f0 :: fs).map (fun f => (f, records.filterMap (lookupField f)))).filterMap
          (fun c => (c.2.get? j).map (fun v => (c.1, v)))) := rfl
  rw [hun, hlen0]
  apply List.ext
  intro j
  rw [get?_range_map]
  by_cases hj : j < records.length
  · rw [if_pos hj, List.get?_eq_get hj]
    have hrj : records.get ⟨j, hj⟩ ∈ records := List.get_mem records j hj
    rw [List.filterMap_map]
    have hcongr : ∀ f ∈ f0 :: fs,
        (((fun c : (F × List V) => (c.2.get? j).map (fun v => (c.1, v))) ∘
          (fun f => (f, records.filterMap (lookupField f)))) f) =
        (lookupField f (records.get ⟨j, hj⟩)).map (fun v => (f, v)) := by
      intro f hf
      have hg : (records.filterMap (lookupField f)).get? j =
          (records.get? j).bind (lookupField f) :=
        get?_filterMap_of_isSome _ records j (fun r hr => hsome f hf r hr)
      simp only [Function.comp]
      rw [hg, List.get?_eq_get hj]
      rfl
    rw [List.filterMap_congr hcongr]
    rw [filterMap_lookup_reconstruct (records.get ⟨j, hj⟩) (f0 :: fs) hnd (hrec _ hrj)]
  · rw [if_neg hj, eq_comm, List.get?_eq_none]
    exact Nat.le_of_not_lt hj

/-- Indexing a row extracted from a dataframe whose columns share one
length. -/
theorem row_of_dataframe_get {F V : Type} (df : List (F × List V)) (n j k : Nat)
    (hj : j < n) (hlen : ∀ c ∈ df, c.2.length = n) :
    (df.filterMap (fun c => (c.2.get? j).map (fun v => (c.1, v)))).get? k =
      (df.get? k).bind (fun c => (c.2.get? j).map (fun v => (c.1, v))) :=
  get?_filterMap_of_isSome _ df k (fun c hc => by
    rw [List.get?_eq_get (show j < c.2.length by rw [hlen c hc]; exact hj)]
    rfl)

/-- A row extracted from a dataframe carries the dataframe's column names
as its field names. -/
theorem row_of_dataframe_fields {F V : Type} (df : List (F × List V)) (n j : Nat)
    (hj : j < n) (hlen : ∀ c ∈ df, c.2.length = n) :
    (df.filterMap (fun c => (c.2.get? j).map (fun v => (c.1, v)))).map Prod.fst =
      df.map Prod.fst := by
  apply List.ext
  intro k
  rw [List.get?_map, List.get?_map, row_of_dataframe_get df n j k hj hlen]
  cases hk : df.get? k with
  | none => rfl
  | some c =>
    have hc : c ∈ df := List.get?_mem hk
    simp only [Option.some_bind]
    rw [List.get?_eq_get (show j < c.2.length by rw [hlen c hc]; exact hj)]
    rfl

/-- Converting a dataframe with equal-length columns to a records list and
back yields the original dataframe. -/
theorem dataframe_roundtrip_columns {F V : Type} [DecidableEq F]
    (df : DataFrame F V) (otype : ObjectType F) (n : Nat)
    (hnd : otype.fields.Nodup) (hne : otype.fields ≠ [])
    (hcols : df.map Prod.fst = otype.fields)
    (hlen : ∀ c ∈ df, c.2.length = n) :
    records_list_to_dataframe (dataframe_to_records_list df otype) otype = df := by
  obtain ⟨fields⟩ := otype
  cases df with
  | nil => exact absurd (by simpa using hcols.symm) hne
  | cons c0 df' =>
    have hn0 : c0.2.length = n := hlen c0 (by simp)
    have hd2r : dataframe_to_records_list (c0 :: df') ⟨fields⟩ =
        (List.range n).map (fun j => (c0 :: df').filterMap
          (fun c => (c.2.get? j).map (fun v => (c.1, v)))) := by
      rw [← hn0]
      rfl
    rw [hd2r]
    have hr2d : records_list_to_dataframe ((List.range n).map (fun j =>
          (c0 :: df').filterMap (fun c => (c.2.get? j).map (fun v => (c.1, v))))) ⟨fields⟩ =
        fields.map (fun f => (f, ((List.range n).map (fun j =>
          (c0 :: df').filterMap (fun c => (c.2.get? j).map (fun v => (c.1, v))))).filterMap
            (lookupField f))) := rfl
    rw [hr2d]
    have hlendf : (c0 :: df').length = fields.length := by
      simpa using congrArg List.length hcols
    apply List.ext
    intro i
    rw [List.get?_map]
    by_cases hi : i < fields.length
    · have hi' : i < (c0 :: df').length := by rw [hlendf]; exact hi
      rw [List.get?_eq_get hi, List.get?_eq_get hi']
      simp only [Option.map_some']
      have hcmem : (c0 :: df').get ⟨i, hi'⟩ ∈ c0 :: df' := List.get_mem _ i hi'
      have hclen : ((c0 :: df').get ⟨i, hi'⟩).2.length = n := hlen _ hcmem
      have hfi : fields.get ⟨i, hi⟩ = ((c0 :: df').get ⟨i, hi'⟩).1 := by
        have h1 := congrArg (fun l => l.get? i) hcols
        simp only [List.get?_map, List.get?_eq_get hi, List.get?_eq_get hi',
          Option.map_some', Option.some.injEq] at h1
        exact h1.symm
      have hsome_rows : ∀ row ∈ (List.range n).map (fun j =>
          (c0 :: df').filterMap (fun c => (c.2.get? j).map (fun v => (c.1, v)))),
          (lookupField (fields.get ⟨i, hi⟩) row).isSome := by
        intro row hrow
        rw [List.mem_map] at hrow
        obtain ⟨j, hjmem, rfl⟩ := hrow
        rw [List.mem_range] at hjmem
        apply lookupField_isSome_of_mem
        rw [row_of_dataframe_fields (c0 :: df') n j hjmem hlen, hcols]
        exact List.get_mem fields i hi
      simp only [Option.some.injEq]
      have hq : (c0 :: df').get ⟨i, hi'⟩ =
          (fields.get ⟨i, hi⟩, ((c0 :: df').get ⟨i, hi'⟩).2) := by
        rw [hfi]
      rw [hq, Prod.mk.injEq]
      refine ⟨rfl, ?_⟩
      apply List.ext
      intro j
      rw [get?_filterMap_of_isSome _ _ j hsome_rows, get?_range_map]
      by_cases hj : j < n
      · rw [if_pos hj]
        simp only [Option.some_bind]
        rw [lookupField_get_of_fields _ fields i hi hnd
          (by rw [row_of_dataframe_fields (c0 :: df') n j hj hlen]; exact hcols)]
        rw [List.get?_map, row_of_dataframe_get (c0 :: df') n j i hj hlen,
          List.get?_eq_get hi']
        simp only [Option.some_bind]
        rw [List.get?_eq_get (show j < ((c0 :: df').get ⟨i, hi'⟩).2.length by
          rw [hclen]; exact hj)]
        rfl
      · rw [if_neg hj]
        simp only [Option.none_bind]
        rw [eq_comm, List.get?_eq_none, hclen]
        exact Nat.le_of_not_lt hj
    · rw [List.get?_eq_none.mpr (Nat.le_of_not_lt hi)]
      simp only [Option.map_none']
      rw [eq_comm, List.get?_eq_none, hlendf]
      exact Nat.le_of_not_lt hi

/-- C5. Round-trip of the inverse memory converters: a records list whose
records carry exactly the schema's (duplicate-free, nonempty) fields,
converted to a dataframe and back, yields the same rows, columns and
values; and symmetrically a dataframe whose columns are the schema's
fields with one shared length converts to records and back to the same
dataframe. -/
theorem convert_roundtrip_row_columnar {F V : Type} [DecidableEq F]
    (records : RecordsList F V) (df : DataFrame F V) (otype : ObjectType F) (n : Nat)
    (hnd : otype.fields.Nodup) (hne : otype.fields ≠ [])
    (hrec : ∀ r ∈ records, r.map Prod.fst = otype.fields)
    (hcols : df.map Prod.fst = otype.fields)
    (hlen : ∀ c ∈ df, c.2.length = n) :
    dataframe_to_records_list (records_list_to_dataframe records otype) otype = records ∧
    records_list_to_dataframe (dataframe_to_records_list df otype) otype = df :=
  ⟨dataframe_roundtrip_records records otype hnd hne hrec,
   dataframe_roundtrip_columns df otype n hnd hne hcols hlen⟩

/-- Witness for C5 on a two-field schema with two rows. -/
theorem convert_roundtrip_row_columnar_witness :
    dataframe_to_records_list (records_list_to_dataframe
        ([[(0, 10), (1, 20)], [(0, 30), (1, 40)]] : RecordsList Nat Nat) ⟨[0, 1]⟩)
        ⟨[0, 1]⟩ =
      [[(0, 10), (1, 20)], [(0, 30), (1, 40)]] ∧
    records_list_to_dataframe (dataframe_to_records_list
        ([(0, [10, 30]), (1, [20, 40])] : DataFrame Nat Nat) ⟨[0, 1]⟩) ⟨[0, 1]⟩ =
      [(0, [10, 30]), (1, [20, 40])] :=
  convert_roundtrip_row_columnar
    [[(0, 10), (1, 20)], [(0, 30), (1, 40)]] [(0, [10, 30]), (1, [20, 40])] ⟨[0, 1]⟩ 2
    (by decide) (by decide) (by decide) (by decide) (by decide)

end Snapflow
